import Mathlib

/-!
Verification development for the Olympiad question batch pipelines
(`question_agent/enhanced_batch_pipeline.py`, `question_agent/batch_pipeline.py`,
`question_agent/simple_pipeline.py`), shallowly embedded in Lean.

The database and the external generation call are modelled as explicit
oracles: an item environment records the question count observed before
processing (`get_exam_question_count`) and, for each attempt index, the
outcome of one `run_pipeline` invocation — either a failure message or the
question count observed after the successful run.  Wall-clock durations and
log lines are not modelled; the inter-item waits of the runner loop are
recorded as explicit trace events.
-/

namespace OlympiadBatch

/-- `BatchConfig` from `question_agent/batch_config.py` (lines 10-35); the
logging and experimental performance fields are omitted because no code path
modelled here reads them.  `max_exams : Optional[int]` keeps the Python
`None`/number distinction; `delay_between_exams` is a rational standing for
the Python float (only its sign is ever branched on). -/
structure BatchConfig where
  skip_existing : Bool
  max_exams : Option Int
  delay_between_exams : ℚ
  exam_filter : Option (List String)
  grade_filter : Option (List Int)
  level_filter : Option (List Int)
  max_retries : Nat
  continue_on_error : Bool
  verbose : Bool
deriving DecidableEq

/-- One row of the `exam_overview` table, as materialised by
`get_filtered_exam_overviews` / `get_all_exam_overviews` (the seven selected
columns). -/
structure ExamOverviewRow where
  exam_overview_id : Int
  exam : String
  grade : Int
  level : Int
  total_questions : Int
  total_marks : Int
  total_time_mins : Int
deriving DecidableEq

/-- The three result statuses used by both pipelines. -/
inductive Status where
  | completed
  | skipped
  | failed
deriving DecidableEq

/-- The per-item result dictionary built by `process_single_exam_with_retry`
(`enhanced_batch_pipeline.py` lines 142-153, 173-185, 197-209).  The
`duration_seconds` entry is wall-clock time and is not modelled. -/
structure ItemResult where
  exam_overview_id : Int
  exam : String
  grade : Int
  level : Int
  status : Status
  questions_before : Nat
  questions_after : Nat
  questions_generated : Int
  error : Option String
  retries : Nat
deriving DecidableEq

/-- Oracle for one work item: `initial_count` is what
`get_exam_question_count` returns before processing; `proc k` is the outcome
of the `run_pipeline` invocation at attempt index `k` — a failure message, or
the question count `get_exam_question_count` observes after that successful
run. -/
structure ItemEnv where
  initial_count : Nat
  proc : Nat → Except String Nat

/-- Outcome of the bounded retry loop of `process_single_exam_with_retry`:
either some attempt succeeded (recording its 0-based index and the final
question count), or every attempt failed and the last error is carried
(`none` standing for the Python initialisation `last_error = None`, which is
only reachable when zero attempts run). -/
inductive AttemptOutcome where
  | success (attempt : Nat) (finalCount : Nat)
  | exhausted (lastError : Option String)
deriving DecidableEq

/-- A run of the retry loop together with the number of `run_pipeline`
invocations it performed. -/
structure AttemptRun where
  calls : Nat
  outcome : AttemptOutcome
deriving DecidableEq

/-- The `for attempt in range(config.max_retries + 1)` loop of
`process_single_exam_with_retry` (lines 157-194): `attempt` is the current
attempt index, the second argument the number of tries remaining, the third
the `last_error` accumulator.  The backoff sleep between attempts is not an
observable of any claim and is not traced here. -/
def runAttempts (proc : Nat → Except String Nat) :
    Nat → Nat → Option String → AttemptRun
  | _, 0, lastErr => { calls := 0, outcome := AttemptOutcome.exhausted lastErr }
  | attempt, remaining + 1, lastErr =>
    match proc attempt with
    | Except.ok c => { calls := 1, outcome := AttemptOutcome.success attempt c }
    | Except.error e =>
      let rest := runAttempts proc (attempt + 1) remaining (some e)
      { calls := rest.calls + 1, outcome := rest.outcome }

/-- Python `str(last_error)`: the message itself, or the string rendering of
`None`. -/
def strOfLastError : Option String → String
  | some e => e
  | none => "None"

/-- `process_single_exam_with_retry` (`enhanced_batch_pipeline.py` lines
128-209), with the database reads and `run_pipeline` supplied by `env`. -/
def process_single_exam_with_retry (item : ExamOverviewRow) (cfg : BatchConfig)
    (env : ItemEnv) : ItemResult :=
  let existing := env.initial_count
  if cfg.skip_existing = true ∧ 0 < existing then
    { exam_overview_id := item.exam_overview_id
      exam := item.exam
      grade := item.grade
      level := item.level
      status := Status.skipped
      questions_before := existing
      questions_after := existing
      questions_generated := 0
      error := none
      retries := 0 }
  else
    match (runAttempts env.proc 0 (cfg.max_retries + 1) none).outcome with
    | AttemptOutcome.success attempt finalCount =>
      { exam_overview_id := item.exam_overview_id
        exam := item.exam
        grade := item.grade
        level := item.level
        status := Status.completed
        questions_before := existing
        questions_after := finalCount
        questions_generated := (finalCount : Int) - (existing : Int)
        error := none
        retries := attempt }
    | AttemptOutcome.exhausted lastErr =>
      { exam_overview_id := item.exam_overview_id
        exam := item.exam
        grade := item.grade
        level := item.level
        status := Status.failed
        questions_before := existing
        questions_after := existing
        questions_generated := 0
        error := some (strOfLastError lastErr)
        retries := cfg.max_retries }

/-- Number of `run_pipeline` invocations `process_single_exam_with_retry`
performs for one item: zero on the skip path, otherwise the calls of the
retry loop. -/
def run_pipeline_invocations (item : ExamOverviewRow) (cfg : BatchConfig)
    (env : ItemEnv) : Nat :=
  if cfg.skip_existing = true ∧ 0 < env.initial_count then 0
  else (runAttempts env.proc 0 (cfg.max_retries + 1) none).calls

/-! ## Work-item fetching and filtering (`get_filtered_exam_overviews`) -/

/-- Python truthiness of an `Optional[List[...]]` filter field: `None` and
the empty list are falsy (`if config.exam_filter:` and friends, lines 62-72). -/
def filterIsSet {α : Type} : Option (List α) → Bool
  | none => false
  | some l => !l.isEmpty

/-- The `where_conditions` list built by `get_filtered_exam_overviews`
(lines 59-73): one membership condition (`field = ANY(:filter)`) per truthy
filter field, in source order. -/
def whereConditions (cfg : BatchConfig) : List (ExamOverviewRow → Bool) :=
  (if filterIsSet cfg.exam_filter then
    [fun r => (cfg.exam_filter.getD []).contains r.exam] else []) ++
  (if filterIsSet cfg.grade_filter then
    [fun r => (cfg.grade_filter.getD []).contains r.grade] else []) ++
  (if filterIsSet cfg.level_filter then
    [fun r => (cfg.level_filter.getD []).contains r.level] else [])

/-- Semantics of the assembled `WHERE` clause (line 74): the conjunction of
all conditions, `"1=1"` — i.e. `true` — when the list is empty. -/
def rowMatches (cfg : BatchConfig) (r : ExamOverviewRow) : Bool :=
  (whereConditions cfg).all fun p => p r

/-- `get_filtered_exam_overviews` (lines 52-101): the rows of the
`exam_overview` table satisfying the assembled `WHERE` clause.  The `table`
argument stands for the relation in the order of the query's
`ORDER BY exam, grade, level`. -/
def get_filtered_exam_overviews (cfg : BatchConfig)
    (table : List ExamOverviewRow) : List ExamOverviewRow :=
  table.filter (rowMatches cfg)

/-! ## The enhanced batch runner (`run_enhanced_batch_pipeline`) -/

/-- Python list slicing `xs[:n]` for an integer bound `n`: a non-negative
bound takes the first `n` elements, a negative bound drops the last `-n`. -/
def pySliceTo {α : Type} (n : Int) (xs : List α) : List α :=
  if 0 ≤ n then xs.take n.toNat
  else xs.take (xs.length - (-n).toNat)

/-- The `max_exams` limit of `run_enhanced_batch_pipeline` (lines 224-227):
the slice is applied only when `config.max_exams` is truthy, i.e. neither
`None` nor `0`. -/
def limitItems (cfg : BatchConfig) (xs : List ExamOverviewRow) :
    List ExamOverviewRow :=
  match cfg.max_exams with
  | none => xs
  | some n => if n ≠ 0 then pySliceTo n xs else xs

/-- Observable events of the runner loop: an item result being recorded, or
the inter-item `asyncio.sleep` at lines 262-263. -/
inductive RunEvent where
  | emitted (r : ItemResult)
  | interItemDelay
deriving DecidableEq

/-- The `for i, exam_info in enumerate(exam_overviews, 1)` loop of
`run_enhanced_batch_pipeline` (lines 243-268): each item is processed, its
result appended; a `failed` result with `continue_on_error=False` breaks out
of the loop; otherwise, when more items remain (`i < total_exams`) and the
delay is positive, the runner sleeps before the next item.  The result list
and the event trace are returned. -/
def runLoop (cfg : BatchConfig) (env : ExamOverviewRow → ItemEnv) :
    List ExamOverviewRow → List ItemResult × List RunEvent
  | [] => ([], [])
  | item :: rest =>
    let r := process_single_exam_with_retry item cfg (env item)
    if r.status = Status.failed ∧ cfg.continue_on_error = false then
      ([r], [RunEvent.emitted r])
    else
      let tail := runLoop cfg env rest
      let evs := if rest ≠ [] ∧ 0 < cfg.delay_between_exams then
        [RunEvent.interItemDelay] else []
      (r :: tail.1, RunEvent.emitted r :: (evs ++ tail.2))

/-- `run_enhanced_batch_pipeline` (lines 211-298): fetch the filtered
overview rows, return early when none match, apply the `max_exams` limit,
then drive the item loop.  The reporting code at the end only logs and is
not modelled. -/
def run_enhanced_batch_pipeline (cfg : BatchConfig)
    (table : List ExamOverviewRow) (env : ExamOverviewRow → ItemEnv) :
    List ItemResult × List RunEvent :=
  let fetched := get_filtered_exam_overviews cfg table
  if fetched = [] then ([], [])
  else runLoop cfg env (limitItems cfg fetched)

/-! ## The basic batch pipeline (`batch_pipeline.py`) -/

/-- The per-item result dictionary of the basic pipeline
(`batch_pipeline.py` lines 112-170); it has no `retries` entry. -/
structure BasicItemResult where
  exam_overview_id : Int
  exam : String
  grade : Int
  level : Int
  status : Status
  questions_before : Nat
  questions_after : Nat
  questions_generated : Int
  error : Option String
deriving DecidableEq

/-- Oracle for one item of the basic pipeline: the count before processing
and the outcome of the single `run_pipeline` invocation. -/
structure BasicItemEnv where
  initial_count : Nat
  proc : Except String Nat

/-- `process_single_exam` (`batch_pipeline.py` lines 99-170): skips
unconditionally whenever the existing count is positive, otherwise runs the
pipeline once, catching any failure into a `failed` result. -/
def process_single_exam (item : ExamOverviewRow) (env : BasicItemEnv) :
    BasicItemResult :=
  let existing := env.initial_count
  if 0 < existing then
    { exam_overview_id := item.exam_overview_id
      exam := item.exam
      grade := item.grade
      level := item.level
      status := Status.skipped
      questions_before := existing
      questions_after := existing
      questions_generated := 0
      error := none }
  else
    match env.proc with
    | Except.ok finalCount =>
      { exam_overview_id := item.exam_overview_id
        exam := item.exam
        grade := item.grade
        level := item.level
        status := Status.completed
        questions_before := existing
        questions_after := finalCount
        questions_generated := (finalCount : Int) - (existing : Int)
        error := none }
    | Except.error e =>
      { exam_overview_id := item.exam_overview_id
        exam := item.exam
        grade := item.grade
        level := item.level
        status := Status.failed
        questions_before := existing
        questions_after := existing
        questions_generated := 0
        error := some e }

/-- Number of `run_pipeline` invocations `process_single_exam` performs. -/
def basic_run_pipeline_invocations (env : BasicItemEnv) : Nat :=
  if 0 < env.initial_count then 0 else 1

/-- `get_all_exam_overviews` (`batch_pipeline.py` lines 33-61): the whole
table, in the query's `ORDER BY` order. -/
def get_all_exam_overviews (table : List ExamOverviewRow) :
    List ExamOverviewRow :=
  table

/-- `run_batch_pipeline` (`batch_pipeline.py` lines 172-234).  The
`skip_existing` parameter is kept in the signature exactly as in the source,
where no statement of the function body reads it.  An empty overview list
returns Python `None` (modelled as `none`); otherwise the items — sliced when
`max_exams` is truthy — are processed sequentially with no early stop and no
delay. -/
def run_batch_pipeline (skip_existing : Bool) (max_exams : Option Int)
    (table : List ExamOverviewRow) (env : ExamOverviewRow → BasicItemEnv) :
    Option (List BasicItemResult) :=
  let exam_overviews := get_all_exam_overviews table
  if exam_overviews = [] then none
  else
    let limited := match max_exams with
      | none => exam_overviews
      | some n => if n ≠ 0 then pySliceTo n exam_overviews else exam_overviews
    some (limited.map fun it => process_single_exam it (env it))

/-! ## Saving questions (`simple_pipeline.save_questions_to_db`) -/

/-- One generated question dictionary, with the fields
`save_questions_to_db` reads (lines 123-134). -/
structure Question where
  syllabus_id : Int
  difficulty : String
  question_text : String
  option_a : String
  option_b : String
  option_c : String
  option_d : String
  correct_option : String
  solution : String
  is_active : Bool
deriving DecidableEq

/-- A row of the `questions` table: the assigned `question_id` and the
inserted values. -/
structure StoredQuestion where
  question_id : Nat
  question : Question
deriving DecidableEq

/-- The `questions` table together with the id sequence backing
`RETURNING question_id`. -/
structure QuestionStore where
  nextId : Nat
  rows : List StoredQuestion
deriving DecidableEq

/-- SQL `LOWER`, modelled character-wise. -/
def sqlLower (s : String) : String :=
  String.mk (s.data.map Char.toLower)

/-- The duplicate check of `save_questions_to_db` (lines 98-105):
`SELECT question_id FROM questions WHERE LOWER(question_text) =
LOWER(:question_text)`. -/
def findDuplicateIds (store : QuestionStore) (txt : String) : List Nat :=
  (store.rows.filter fun s =>
    sqlLower s.question.question_text == sqlLower txt).map
    fun s => s.question_id

/-- The `INSERT ... RETURNING question_id` of `save_questions_to_db`
(lines 108-137): the row is appended regardless of duplicates, and the new
id returned. -/
def insertQuestion (store : QuestionStore) (q : Question) :
    Nat × QuestionStore :=
  (store.nextId,
    { nextId := store.nextId + 1
      rows := store.rows ++ [{ question_id := store.nextId, question := q }] })

/-- The per-question loop of `save_questions_to_db` (lines 94-144): check
for duplicates (emitting a notice — the printed existing ids — when any are
found), insert, count.  The `except` branch catches database errors of a
single insert, which the store model cannot produce; the duplicate path
claimed about here raises nothing. -/
def saveLoop (store : QuestionStore) :
    List Question → Nat × QuestionStore × List (List Nat)
  | [] => (0, store, [])
  | q :: rest =>
    let dups := findDuplicateIds store q.question_text
    let ins := insertQuestion store q
    let tail := saveLoop ins.2 rest
    (tail.1 + 1, tail.2.1, (if dups ≠ [] then [dups] else []) ++ tail.2.2)

/-- `save_questions_to_db` (lines 88-149): early return `0` on an empty
question list, otherwise the loop above.  Returns the saved count, the
updated store, and the duplicate notices in order. -/
def save_questions_to_db (questions : List Question)
    (store : QuestionStore) : Nat × QuestionStore × List (List Nat) :=
  if questions = [] then (0, store, [])
  else saveLoop store questions

/-! ## Concrete fixtures used by witnesses and counterexamples -/

/-- A base configuration for concrete instances: skip enabled, delay 1s. -/
def cfgSkipW : BatchConfig :=
  { skip_existing := true, max_exams := none, delay_between_exams := 1,
    exam_filter := none, grade_filter := none, level_filter := none,
    max_retries := 3, continue_on_error := true, verbose := true }

/-- Retry-oriented configuration: no skipping, two retries. -/
def cfgRetryW : BatchConfig :=
  { cfgSkipW with skip_existing := false, max_retries := 2 }

/-- Early-stop configuration: no skipping, no retries, stop on error. -/
def cfgStopW : BatchConfig :=
  { cfgSkipW with
    skip_existing := false, max_retries := 0,
    continue_on_error := false, delay_between_exams := 0 }

/-- Like `cfgStopW` but continuing past errors. -/
def cfgContW : BatchConfig :=
  { cfgStopW with continue_on_error := true }

/-- Filtering configuration: exam and grade filters set. -/
def cfgFilterW : BatchConfig :=
  { cfgSkipW with exam_filter := some ["IMO"], grade_filter := some [6] }

/-- Configuration with `max_exams = 0`. -/
def cfgLimit0W : BatchConfig :=
  { cfgSkipW with max_exams := some 0 }

/-- Configuration with `max_exams = 2` and no skipping. -/
def cfgLimit2W : BatchConfig :=
  { cfgSkipW with
    skip_existing := false, max_retries := 0, max_exams := some 2 }

/-- A sample `exam_overview` row. -/
def rowAW : ExamOverviewRow :=
  { exam_overview_id := 1, exam := "IMO", grade := 6, level := 1,
    total_questions := 50, total_marks := 60, total_time_mins := 60 }

/-- A second sample row, different exam. -/
def rowBW : ExamOverviewRow :=
  { rowAW with exam_overview_id := 2, exam := "IEO" }

/-- A third sample row, different grade. -/
def rowCW : ExamOverviewRow :=
  { rowAW with exam_overview_id := 3, grade := 7 }

/-- A three-row `exam_overview` table. -/
def table3W : List ExamOverviewRow := [rowAW, rowBW, rowCW]

/-- Item oracle whose existing question count is positive and whose
processor always fails. -/
def envSkipOneW : ItemEnv :=
  { initial_count := 5, proc := fun _ => Except.error "api down" }

/-- Assigns `envSkipOneW` to every item. -/
def envSkipAllW : ExamOverviewRow → ItemEnv := fun _ => envSkipOneW

/-- Item oracle with no existing questions and a permanently failing
processor. -/
def envFailW : ItemEnv :=
  { initial_count := 0, proc := fun _ => Except.error "boom" }

/-- Item oracles where only the item with `exam_overview_id = 2` fails; the
others succeed at once with five questions. -/
def envSelW : ExamOverviewRow → ItemEnv := fun r =>
  if r.exam_overview_id = 2 then envFailW
  else { initial_count := 0, proc := fun _ => Except.ok 5 }

/-- A sample generated question. -/
def q1W : Question :=
  { syllabus_id := 1, difficulty := "easy",
    question_text := "What is 2 plus 2?",
    option_a := "1", option_b := "2", option_c := "3", option_d := "4",
    correct_option := "d", solution := "count", is_active := true }

/-- The same text as `q1W` up to letter case. -/
def q2W : Question := { q1W with question_text := "WHAT IS 2 plus 2?" }

/-- A question with fresh text. -/
def q3W : Question := { q1W with question_text := "Name a prime number" }

/-- A store already holding `q1W` under id 3. -/
def stW : QuestionStore :=
  { nextId := 10, rows := [{ question_id := 3, question := q1W }] }

/-! ## Claims about `process_single_exam_with_retry` -/

/-- C1: with `skip_existing = true` and a strictly positive existing question
count, `process_single_exam_with_retry` returns a `skipped` result with zero
questions generated and unchanged counts, and never invokes `run_pipeline`,
for every item and every processor behavior. -/
theorem C1_skip_existing_skips (item : ExamOverviewRow) (cfg : BatchConfig)
    (env : ItemEnv) (hskip : cfg.skip_existing = true)
    (hpos : 0 < env.initial_count) :
    (process_single_exam_with_retry item cfg env).status = Status.skipped ∧
    (process_single_exam_with_retry item cfg env).questions_generated = 0 ∧
    (process_single_exam_with_retry item cfg env).questions_before =
      (process_single_exam_with_retry item cfg env).questions_after ∧
    run_pipeline_invocations item cfg env = 0 := by
  simp [process_single_exam_with_retry, run_pipeline_invocations, hskip, hpos]

/-- Witness for C1 at a concrete item, configuration, and always-failing
processor. -/
theorem C1_skip_existing_skips_witness :
    cfgSkipW.skip_existing = true ∧ 0 < envSkipOneW.initial_count ∧
    ((process_single_exam_with_retry rowAW cfgSkipW envSkipOneW).status =
        Status.skipped ∧
      (process_single_exam_with_retry rowAW cfgSkipW envSkipOneW).questions_generated = 0 ∧
      (process_single_exam_with_retry rowAW cfgSkipW envSkipOneW).questions_before =
        (process_single_exam_with_retry rowAW cfgSkipW envSkipOneW).questions_after ∧
      run_pipeline_invocations rowAW cfgSkipW envSkipOneW = 0) :=
  ⟨by decide, by decide,
    C1_skip_existing_skips rowAW cfgSkipW envSkipOneW (by decide) (by decide)⟩

/-- A permanently failing processor drives the retry loop through all of its
`n + 1` tries, and the loop ends exhausted with the message of the attempt at
index `a + n`. -/
theorem runAttempts_allFail (proc : Nat → Except String Nat)
    (h : ∀ k, ∃ m, proc k = Except.error m) :
    ∀ (n a : Nat) (le : Option String),
      (runAttempts proc a (n + 1) le).calls = n + 1 ∧
      ∃ m, proc (a + n) = Except.error m ∧
        (runAttempts proc a (n + 1) le).outcome =
          AttemptOutcome.exhausted (some m) := by
  intro n
  induction n with
  | zero =>
    intro a le
    obtain ⟨m, hm⟩ := h a
    refine ⟨?_, m, by simpa using hm, ?_⟩ <;> simp [runAttempts, hm]
  | succ n ih =>
    intro a le
    obtain ⟨m0, hm0⟩ := h a
    obtain ⟨hc, m, hm, hout⟩ := ih (a + 1) (some m0)
    have hstep : runAttempts proc a (n + 1 + 1) le =
        { calls := (runAttempts proc (a + 1) (n + 1) (some m0)).calls + 1,
          outcome := (runAttempts proc (a + 1) (n + 1) (some m0)).outcome } := by
      simp only [runAttempts, hm0]
    refine ⟨?_, m, ?_, ?_⟩
    · rw [hstep]; simp [hc]
    · rw [show a + (n + 1) = a + 1 + n by omega]
      exact hm
    · rw [hstep]; simp [hout]

/-- Counterexample to C2 as stated: with `skip_existing = true` and an item
that already has questions, a permanently failing processor is invoked zero
times — not `max_retries + 1 = 4` times — and the result is `skipped`, not
`failed`. -/
theorem C2_counterexample :
    run_pipeline_invocations rowAW cfgSkipW envSkipOneW = 0 ∧
    (process_single_exam_with_retry rowAW cfgSkipW envSkipOneW).status =
      Status.skipped := by
  decide

/-- C2 (amended): provided the item is not skipped — `skip_existing` is false
or the existing question count is zero — a processor failing on every
invocation is invoked exactly `max_retries + 1` times; the result is `failed`
with `retries = max_retries`, zero questions generated, and `error` set to
the message of the last failure (the attempt at index `max_retries`). -/
theorem C2_retry_exhaustion (item : ExamOverviewRow) (cfg : BatchConfig)
    (env : ItemEnv)
    (hns : cfg.skip_existing = false ∨ env.initial_count = 0)
    (hfail : ∀ k, ∃ m, env.proc k = Except.error m) :
    run_pipeline_invocations item cfg env = cfg.max_retries + 1 ∧
    (process_single_exam_with_retry item cfg env).status = Status.failed ∧
    (process_single_exam_with_retry item cfg env).retries = cfg.max_retries ∧
    (process_single_exam_with_retry item cfg env).questions_generated = 0 ∧
    ∃ m, env.proc cfg.max_retries = Except.error m ∧
      (process_single_exam_with_retry item cfg env).error = some m := by
  obtain ⟨hc, m, hm, hout⟩ := runAttempts_allFail env.proc hfail cfg.max_retries 0 none
  have hcond : ¬(cfg.skip_existing = true ∧ 0 < env.initial_count) := by
    rcases hns with h | h <;> simp [h]
  rw [Nat.zero_add] at hm
  refine ⟨?_, ?_, ?_, ?_, m, hm, ?_⟩ <;>
    simp [run_pipeline_invocations, process_single_exam_with_retry, hcond, hc,
      hout, strOfLastError]

/-- Witness for the amended C2: with `max_retries = 2` and a processor that
always fails with message `boom`, there are exactly three invocations and a
`failed` result carrying `boom`. -/
theorem C2_retry_exhaustion_witness :
    run_pipeline_invocations rowAW cfgRetryW envFailW = 3 ∧
    (process_single_exam_with_retry rowAW cfgRetryW envFailW).status =
      Status.failed ∧
    (process_single_exam_with_retry rowAW cfgRetryW envFailW).retries = 2 ∧
    (process_single_exam_with_retry rowAW cfgRetryW envFailW).error =
      some "boom" := by
  have h := C2_retry_exhaustion rowAW cfgRetryW envFailW (Or.inl rfl)
    (fun _ => ⟨"boom", rfl⟩)
  exact ⟨h.1, h.2.1, h.2.2.1, by decide⟩

/-- C8: every result of `process_single_exam_with_retry` satisfies
`questions_generated = questions_after - questions_before`; `skipped` and
`failed` results moreover have equal counts and zero generated. -/
theorem C8_count_invariant (item : ExamOverviewRow) (cfg : BatchConfig)
    (env : ItemEnv) :
    (process_single_exam_with_retry item cfg env).questions_generated =
      ((process_single_exam_with_retry item cfg env).questions_after : Int) -
        ((process_single_exam_with_retry item cfg env).questions_before : Int) ∧
    ((process_single_exam_with_retry item cfg env).status = Status.skipped ∨
      (process_single_exam_with_retry item cfg env).status = Status.failed →
      (process_single_exam_with_retry item cfg env).questions_after =
        (process_single_exam_with_retry item cfg env).questions_before ∧
      (process_single_exam_with_retry item cfg env).questions_generated = 0) := by
  unfold process_single_exam_with_retry
  by_cases hcond : cfg.skip_existing = true ∧ 0 < env.initial_count
  · simp [hcond]
  · simp only [hcond, if_false]
    split <;> simp

/-- Witness for C8 at a concrete skipped instance. -/
theorem C8_count_invariant_witness :
    (process_single_exam_with_retry rowAW cfgSkipW envSkipOneW).questions_generated =
      ((process_single_exam_with_retry rowAW cfgSkipW envSkipOneW).questions_after : Int) -
        ((process_single_exam_with_retry rowAW cfgSkipW envSkipOneW).questions_before : Int) ∧
    ((process_single_exam_with_retry rowAW cfgSkipW envSkipOneW).status = Status.skipped ∨
      (process_single_exam_with_retry rowAW cfgSkipW envSkipOneW).status = Status.failed →
      (process_single_exam_with_retry rowAW cfgSkipW envSkipOneW).questions_after =
        (process_single_exam_with_retry rowAW cfgSkipW envSkipOneW).questions_before ∧
      (process_single_exam_with_retry rowAW cfgSkipW envSkipOneW).questions_generated = 0) :=
  C8_count_invariant rowAW cfgSkipW envSkipOneW

/-! ## Claims about the runner loop -/

/-- The results collected by the runner loop are an initial segment of the
per-item results of the whole list: stopping early never reorders, repeats,
or invents results. -/
theorem runLoop_results_extend (cfg : BatchConfig)
    (env : ExamOverviewRow → ItemEnv) :
    ∀ xs : List ExamOverviewRow, ∃ t,
      xs.map (fun it => process_single_exam_with_retry it cfg (env it)) =
        (runLoop cfg env xs).1 ++ t := by
  intro xs
  induction xs with
  | nil => exact ⟨[], rfl⟩
  | cons x xs ih =>
    obtain ⟨t, ht⟩ := ih
    by_cases hb : (process_single_exam_with_retry x cfg (env x)).status =
        Status.failed ∧ cfg.continue_on_error = false
    · exact ⟨xs.map (fun it => process_single_exam_with_retry it cfg (env it)),
        by simp [runLoop, hb]⟩
    · exact ⟨t, by simp [runLoop, hb, ht]⟩

/-- With `continue_on_error = true` the runner loop processes every item. -/
theorem runLoop_results_all (cfg : BatchConfig)
    (env : ExamOverviewRow → ItemEnv) (hco : cfg.continue_on_error = true) :
    ∀ xs : List ExamOverviewRow, (runLoop cfg env xs).1 =
      xs.map (fun it => process_single_exam_with_retry it cfg (env it)) := by
  intro xs
  induction xs with
  | nil => rfl
  | cons x xs ih => simp [runLoop, hco, ih]

/-- With `continue_on_error = false` the runner loop stops right after the
first `failed` result: the collected results are the first `j + 1` per-item
results, `j` being the index of the first failure. -/
theorem runLoop_early_stop (cfg : BatchConfig)
    (env : ExamOverviewRow → ItemEnv) (hco : cfg.continue_on_error = false) :
    ∀ (xs : List ExamOverviewRow) (j : Nat) (rj : ItemResult),
      (xs.map (fun it => process_single_exam_with_retry it cfg (env it)))[j]? =
        some rj →
      rj.status = Status.failed →
      (∀ i, i < j → ∀ ri,
        (xs.map (fun it => process_single_exam_with_retry it cfg (env it)))[i]? =
          some ri → ri.status ≠ Status.failed) →
      (runLoop cfg env xs).1 =
        (xs.map (fun it => process_single_exam_with_retry it cfg (env it))).take
          (j + 1) := by
  intro xs
  induction xs with
  | nil => intro j rj hj _ _; simp at hj
  | cons x xs ih =>
    intro j rj hj hfail hfirst
    match j with
    | 0 =>
      rw [List.map_cons, List.getElem?_cons_zero] at hj
      have hx : process_single_exam_with_retry x cfg (env x) = rj :=
        Option.some.inj hj
      have hb : (process_single_exam_with_retry x cfg (env x)).status =
          Status.failed ∧ cfg.continue_on_error = false := ⟨hx ▸ hfail, hco⟩
      simp [runLoop, hb]
    | j + 1 =>
      have h0 : (process_single_exam_with_retry x cfg (env x)).status ≠
          Status.failed := by
        refine hfirst 0 (by omega) _ ?_
        rw [List.map_cons, List.getElem?_cons_zero]
      have hb : ¬((process_single_exam_with_retry x cfg (env x)).status =
          Status.failed ∧ cfg.continue_on_error = false) := fun hc => h0 hc.1
      have htail := ih j rj (by simpa using hj) hfail
        (fun i hi ri hri => hfirst (i + 1) (by omega) ri (by simpa using hri))
      simp [runLoop, hb, htail]

/-- `limitItems` of an empty list is empty. -/
theorem limitItems_nil (cfg : BatchConfig) : limitItems cfg [] = [] := by
  unfold limitItems
  cases cfg.max_exams with
  | none => rfl
  | some n => simp [pySliceTo]

/-- C3: with `continue_on_error = false`, if the item at 0-based position `j`
of the limited, filtered work list is the first whose result is `failed`,
then `run_enhanced_batch_pipeline` returns exactly the first `j + 1`
per-item results, the last of which is that failure; no later item is
processed. -/
theorem C3_early_stop (cfg : BatchConfig) (table : List ExamOverviewRow)
    (env : ExamOverviewRow → ItemEnv) (hco : cfg.continue_on_error = false)
    (j : Nat) (rj : ItemResult)
    (hj : ((limitItems cfg (get_filtered_exam_overviews cfg table)).map
      (fun it => process_single_exam_with_retry it cfg (env it)))[j]? = some rj)
    (hfail : rj.status = Status.failed)
    (hfirst : ∀ i, i < j → ∀ ri,
      ((limitItems cfg (get_filtered_exam_overviews cfg table)).map
        (fun it => process_single_exam_with_retry it cfg (env it)))[i]? =
          some ri → ri.status ≠ Status.failed) :
    (run_enhanced_batch_pipeline cfg table env).1 =
      ((limitItems cfg (get_filtered_exam_overviews cfg table)).map
        (fun it => process_single_exam_with_retry it cfg (env it))).take
        (j + 1) ∧
    (run_enhanced_batch_pipeline cfg table env).1.length = j + 1 ∧
    ((run_enhanced_batch_pipeline cfg table env).1)[j]? = some rj := by
  have hlen : j < ((limitItems cfg (get_filtered_exam_overviews cfg table)).map
      (fun it => process_single_exam_with_retry it cfg (env it))).length := by
    rcases List.getElem?_eq_some.mp hj with ⟨h, _⟩
    exact h
  have hres : (run_enhanced_batch_pipeline cfg table env).1 =
      ((limitItems cfg (get_filtered_exam_overviews cfg table)).map
        (fun it => process_single_exam_with_retry it cfg (env it))).take
        (j + 1) := by
    unfold run_enhanced_batch_pipeline
    by_cases hemp : get_filtered_exam_overviews cfg table = []
    · rw [hemp] at hj
      rw [limitItems_nil] at hj
      simp at hj
    · simp only [hemp, if_false]
      exact runLoop_early_stop cfg env hco _ j rj hj hfail hfirst
  refine ⟨hres, ?_, ?_⟩
  · rw [hres, List.length_take]
    omega
  · rw [hres, List.getElem?_take]
    simp [hj]

/-- Witness for C3: a three-item table whose second item fails under a
no-retry, stop-on-error configuration; the run returns exactly two results
and ends with the failure. -/
theorem C3_early_stop_witness :
    (run_enhanced_batch_pipeline cfgStopW table3W envSelW).1.length = 2 ∧
    ((run_enhanced_batch_pipeline cfgStopW table3W envSelW).1)[1]? =
      some (process_single_exam_with_retry rowBW cfgStopW (envSelW rowBW)) := by
  have h := C3_early_stop cfgStopW table3W envSelW rfl 1
    (process_single_exam_with_retry rowBW cfgStopW (envSelW rowBW))
    (by decide) (by decide)
    (by
      intro i hi ri hri
      have hi0 : i = 0 := by omega
      subst hi0
      have h0 : ((limitItems cfgStopW
          (get_filtered_exam_overviews cfgStopW table3W)).map
          (fun it => process_single_exam_with_retry it cfgStopW
            (envSelW it)))[0]? =
          some (process_single_exam_with_retry rowAW cfgStopW
            (envSelW rowAW)) := by decide
      rw [h0] at hri
      have := Option.some.inj hri
      rw [← this]
      decide)
  exact ⟨h.2.1, h.2.2⟩

/-- Every `failed` result of `process_single_exam_with_retry` carries an
error message. -/
theorem process_failed_has_error (item : ExamOverviewRow) (cfg : BatchConfig)
    (env : ItemEnv) :
    (process_single_exam_with_retry item cfg env).status = Status.failed →
    ∃ m, (process_single_exam_with_retry item cfg env).error = some m := by
  unfold process_single_exam_with_retry
  by_cases hcond : cfg.skip_existing = true ∧ 0 < env.initial_count
  · simp [hcond]
  · simp only [hcond, if_false]
    split <;> simp

/-- C4: item-level errors never escape the runner — the returned list is
always an initial segment of the per-item results (so the run always yields
a result list, possibly partial), every `failed` entry carries its error
message in the `error` field, and with `continue_on_error = true` a failure
never aborts the remainder: all items are processed. -/
theorem C4_error_containment (cfg : BatchConfig) (table : List ExamOverviewRow)
    (env : ExamOverviewRow → ItemEnv) :
    (∃ t, (limitItems cfg (get_filtered_exam_overviews cfg table)).map
        (fun it => process_single_exam_with_retry it cfg (env it)) =
      (run_enhanced_batch_pipeline cfg table env).1 ++ t) ∧
    (∀ r ∈ (run_enhanced_batch_pipeline cfg table env).1,
      r.status = Status.failed → ∃ m, r.error = some m) ∧
    (cfg.continue_on_error = true →
      (run_enhanced_batch_pipeline cfg table env).1 =
        (limitItems cfg (get_filtered_exam_overviews cfg table)).map
          (fun it => process_single_exam_with_retry it cfg (env it))) := by
  have hext : ∃ t, (limitItems cfg (get_filtered_exam_overviews cfg table)).map
      (fun it => process_single_exam_with_retry it cfg (env it)) =
      (run_enhanced_batch_pipeline cfg table env).1 ++ t := by
    unfold run_enhanced_batch_pipeline
    by_cases hemp : get_filtered_exam_overviews cfg table = []
    · exact ⟨[], by simp [hemp, limitItems_nil]⟩
    · simp only [hemp, if_false]
      exact runLoop_results_extend cfg env _
  refine ⟨hext, ?_, ?_⟩
  · intro r hr hfr
    obtain ⟨t, ht⟩ := hext
    have hrmem : r ∈ (limitItems cfg (get_filtered_exam_overviews cfg table)).map
        (fun it => process_single_exam_with_retry it cfg (env it)) := by
      rw [ht]; exact List.mem_append_left _ hr
    obtain ⟨it, _, heq⟩ := List.mem_map.mp hrmem
    rw [← heq]
    exact process_failed_has_error it cfg (env it) (heq ▸ hfr)
  · intro hco
    unfold run_enhanced_batch_pipeline
    by_cases hemp : get_filtered_exam_overviews cfg table = []
    · simp [hemp, limitItems_nil]
    · simp only [hemp, if_false]
      exact runLoop_results_all cfg env hco _

/-- Witness for C4: with `continue_on_error = true` and one failing item in
the middle, the run still yields the per-item result of every item. -/
theorem C4_error_containment_witness :
    (run_enhanced_batch_pipeline cfgContW table3W envSelW).1 =
      (limitItems cfgContW (get_filtered_exam_overviews cfgContW table3W)).map
        (fun it => process_single_exam_with_retry it cfgContW (envSelW it)) :=
  (C4_error_containment cfgContW table3W envSelW).2.2 rfl

/-- Counterexample to C5 as stated: under a skip configuration with a
positive delay, the trace of a two-item run shows the inter-item wait
directly after a `skipped` first item. -/
theorem C5_counterexample :
    (process_single_exam_with_retry rowAW cfgSkipW (envSkipAllW rowAW)).status =
      Status.skipped ∧
    ((runLoop cfgSkipW envSkipAllW [rowAW, rowBW]).2)[1]? =
      some RunEvent.interItemDelay := by
  decide

/-- C5 (amended): with `delay_between_items > 0` the runner waits after
every item that is neither the last one nor a run-aborting failure — whether
that item was processed or skipped; in particular a skipped non-final item
is followed by the inter-item delay. -/
theorem C5_delay_between_items (cfg : BatchConfig)
    (env : ExamOverviewRow → ItemEnv) (item : ExamOverviewRow)
    (rest : List ExamOverviewRow) (hrest : rest ≠ [])
    (hdelay : 0 < cfg.delay_between_exams)
    (hnb : ¬((process_single_exam_with_retry item cfg (env item)).status =
      Status.failed ∧ cfg.continue_on_error = false)) :
    runLoop cfg env (item :: rest) =
      (process_single_exam_with_retry item cfg (env item) ::
        (runLoop cfg env rest).1,
       RunEvent.emitted (process_single_exam_with_retry item cfg (env item)) ::
         RunEvent.interItemDelay :: (runLoop cfg env rest).2) := by
  simp [runLoop, hnb, hrest, hdelay]

/-- Witness for the amended C5: a skipped first item followed by the delay
event and the rest of the trace. -/
theorem C5_delay_between_items_witness :
    runLoop cfgSkipW envSkipAllW [rowAW, rowBW] =
      (process_single_exam_with_retry rowAW cfgSkipW (envSkipAllW rowAW) ::
        (runLoop cfgSkipW envSkipAllW [rowBW]).1,
       RunEvent.emitted
          (process_single_exam_with_retry rowAW cfgSkipW (envSkipAllW rowAW)) ::
         RunEvent.interItemDelay ::
           (runLoop cfgSkipW envSkipAllW [rowBW]).2) :=
  C5_delay_between_items cfgSkipW envSkipAllW rowAW [rowBW] (by decide)
    (by decide) (by decide)

/-! ## Filtering, persistence, and the basic pipeline -/

/-- C6: `get_filtered_exam_overviews` applies the exam, grade, and level
filters conjunctively — a row is returned exactly when it is in the table
and matches every filter field that is set — and with no filter set the
assembled condition is trivially true, so the whole table is returned. -/
theorem C6_conjunctive_filters (cfg : BatchConfig)
    (table : List ExamOverviewRow) :
    (∀ r : ExamOverviewRow, r ∈ get_filtered_exam_overviews cfg table ↔
      r ∈ table ∧
      (filterIsSet cfg.exam_filter = true → r.exam ∈ cfg.exam_filter.getD []) ∧
      (filterIsSet cfg.grade_filter = true →
        r.grade ∈ cfg.grade_filter.getD []) ∧
      (filterIsSet cfg.level_filter = true →
        r.level ∈ cfg.level_filter.getD [])) ∧
    (filterIsSet cfg.exam_filter = false →
      filterIsSet cfg.grade_filter = false →
      filterIsSet cfg.level_filter = false →
      get_filtered_exam_overviews cfg table = table) := by
  constructor
  · intro r
    by_cases h1 : filterIsSet cfg.exam_filter = true <;>
      by_cases h2 : filterIsSet cfg.grade_filter = true <;>
        by_cases h3 : filterIsSet cfg.level_filter = true <;>
          simp [get_filtered_exam_overviews, List.mem_filter, rowMatches,
            whereConditions, h1, h2, h3, List.contains, List.elem_iff,
            and_assoc]
  · intro h1 h2 h3
    simp [get_filtered_exam_overviews, rowMatches, whereConditions, h1, h2, h3,
      List.filter_true]

/-- Witness for C6: with exam and grade filters set, the matching row is
selected; with no filters, the table is returned whole. -/
theorem C6_conjunctive_filters_witness :
    rowAW ∈ get_filtered_exam_overviews cfgFilterW table3W ∧
    get_filtered_exam_overviews cfgSkipW table3W = table3W :=
  ⟨((C6_conjunctive_filters cfgFilterW table3W).1 rowAW).mpr
      ⟨by decide, by decide, by decide, by decide⟩,
    (C6_conjunctive_filters cfgSkipW table3W).2 rfl rfl rfl⟩

/-- Inserting questions never removes rows: every row of the incoming store
is still present after the save loop. -/
theorem saveLoop_rows_mono :
    ∀ (qs : List Question) (st : QuestionStore) (s : StoredQuestion),
      s ∈ st.rows → s ∈ (saveLoop st qs).2.1.rows := by
  intro qs
  induction qs with
  | nil => intro st s hs; exact hs
  | cons q rest ih =>
    intro st s hs
    exact ih _ s (by simp [insertQuestion, hs])

/-- C7: a duplicate detected by `save_questions_to_db` is not an error — the
question is still inserted under a fresh id, the pre-existing rows are kept
(so both records coexist), the question is counted in the returned saved
count, the existing ids are emitted as a notice, and the remaining questions
are processed normally. -/
theorem C7_duplicate_is_notice (store : QuestionStore) (q : Question)
    (rest : List Question)
    (hdup : findDuplicateIds store q.question_text ≠ []) :
    save_questions_to_db (q :: rest) store =
      ((saveLoop (insertQuestion store q).2 rest).1 + 1,
       (saveLoop (insertQuestion store q).2 rest).2.1,
       findDuplicateIds store q.question_text ::
         (saveLoop (insertQuestion store q).2 rest).2.2) ∧
    (∀ s ∈ store.rows,
      s ∈ (save_questions_to_db (q :: rest) store).2.1.rows) ∧
    ({ question_id := store.nextId, question := q } : StoredQuestion) ∈
      (save_questions_to_db (q :: rest) store).2.1.rows := by
  have h1 : save_questions_to_db (q :: rest) store =
      ((saveLoop (insertQuestion store q).2 rest).1 + 1,
       (saveLoop (insertQuestion store q).2 rest).2.1,
       findDuplicateIds store q.question_text ::
         (saveLoop (insertQuestion store q).2 rest).2.2) := by
    simp [save_questions_to_db, saveLoop, hdup]
  refine ⟨h1, ?_, ?_⟩
  · intro s hs
    rw [h1]
    exact saveLoop_rows_mono rest _ s (by simp [insertQuestion, hs])
  · rw [h1]
    exact saveLoop_rows_mono rest _ _ (by simp [insertQuestion])

/-- Witness for C7: saving a question whose text duplicates a stored one (up
to case) inserts it next to the old record, counts it, notices the old id,
and goes on with the remaining question. -/
theorem C7_duplicate_is_notice_witness :
    findDuplicateIds stW q2W.question_text ≠ [] ∧
    ({ question_id := 3, question := q1W } : StoredQuestion) ∈
      (save_questions_to_db [q2W, q3W] stW).2.1.rows ∧
    ({ question_id := 10, question := q2W } : StoredQuestion) ∈
      (save_questions_to_db [q2W, q3W] stW).2.1.rows ∧
    (save_questions_to_db [q2W, q3W] stW).1 = 2 ∧
    (save_questions_to_db [q2W, q3W] stW).2.2 =
      [findDuplicateIds stW q2W.question_text] := by
  have h := C7_duplicate_is_notice stW q2W [q3W] (by decide)
  exact ⟨by decide, h.2.1 _ (by decide), h.2.2, by decide, by decide⟩

/-- Item oracle for the basic pipeline with a positive existing count. -/
def benvW : BasicItemEnv :=
  { initial_count := 5, proc := Except.error "boom" }

/-- Assigns `benvW` to every item. -/
def benvAllW : ExamOverviewRow → BasicItemEnv := fun _ => benvW

/-- C9: the `skip_existing` parameter of the basic `run_batch_pipeline` has
no effect — runs differing only in it are identical — because
`process_single_exam` skips unconditionally (without invoking the processor)
whenever the existing count is positive, and the parameter is never read. -/
theorem C9_skip_existing_no_effect (b₁ b₂ : Bool) (m : Option Int)
    (table : List ExamOverviewRow) (env : ExamOverviewRow → BasicItemEnv)
    (it : ExamOverviewRow) (e : BasicItemEnv) :
    run_batch_pipeline b₁ m table env = run_batch_pipeline b₂ m table env ∧
    (0 < e.initial_count →
      (process_single_exam it e).status = Status.skipped ∧
      basic_run_pipeline_invocations e = 0) := by
  refine ⟨rfl, fun h => ?_⟩
  simp [process_single_exam, basic_run_pipeline_invocations, h]

/-- Witness for C9 at concrete flag values and a concrete item with
existing questions. -/
theorem C9_skip_existing_no_effect_witness :
    run_batch_pipeline true none table3W benvAllW =
      run_batch_pipeline false none table3W benvAllW ∧
    ((process_single_exam rowAW benvW).status = Status.skipped ∧
      basic_run_pipeline_invocations benvW = 0) := by
  have h := C9_skip_existing_no_effect true false none table3W benvAllW
    rowAW benvW
  exact ⟨h.1, h.2 (by decide)⟩

/-! ## The `max_exams` limit -/

/-- `process_single_exam_with_retry` does not read `max_exams`. -/
theorem process_single_max_exams_irrel (it : ExamOverviewRow)
    (cfg : BatchConfig) (m : Option Int) (e : ItemEnv) :
    process_single_exam_with_retry it { cfg with max_exams := m } e =
      process_single_exam_with_retry it cfg e := rfl

/-- The runner loop does not read `max_exams`. -/
theorem runLoop_max_exams_irrel (cfg : BatchConfig) (m : Option Int)
    (env : ExamOverviewRow → ItemEnv) :
    ∀ xs, runLoop { cfg with max_exams := m } env xs = runLoop cfg env xs := by
  intro xs
  induction xs with
  | nil => rfl
  | cons x xs ih =>
    simp [runLoop, process_single_max_exams_irrel, ih]

/-- `get_filtered_exam_overviews` does not read `max_exams`. -/
theorem get_filtered_max_exams_irrel (cfg : BatchConfig) (m : Option Int)
    (table : List ExamOverviewRow) :
    get_filtered_exam_overviews { cfg with max_exams := m } table =
      get_filtered_exam_overviews cfg table := rfl

/-- C10: `max_exams = 0` is falsy, so no limit is applied — the whole
fetched list is processed and the run equals the run with `max_exams = None`
— while `max_exams = n` with `n > 0` takes the first `n` fetched items, so
at most `n` results are produced and they are an initial segment of the
per-item results of those first `n` items. -/
theorem C10_max_exams_limit (cfg : BatchConfig) (table : List ExamOverviewRow)
    (env : ExamOverviewRow → ItemEnv) (xs : List ExamOverviewRow) :
    (cfg.max_exams = some 0 →
      limitItems cfg xs = xs ∧
      run_enhanced_batch_pipeline cfg table env =
        run_enhanced_batch_pipeline { cfg with max_exams := none } table env) ∧
    (∀ n : Int, cfg.max_exams = some n → 0 < n →
      limitItems cfg xs = xs.take n.toNat ∧
      (run_enhanced_batch_pipeline cfg table env).1.length ≤ n.toNat ∧
      ∃ t, ((get_filtered_exam_overviews cfg table).take n.toNat).map
          (fun it => process_single_exam_with_retry it cfg (env it)) =
        (run_enhanced_batch_pipeline cfg table env).1 ++ t) := by
  constructor
  · intro h0
    have hlim : ∀ ys : List ExamOverviewRow, limitItems cfg ys = ys := by
      intro ys; simp [limitItems, h0]
    have hlim' : ∀ ys : List ExamOverviewRow,
        limitItems { cfg with max_exams := none } ys = ys := by
      intro ys; simp [limitItems]
    refine ⟨hlim xs, ?_⟩
    unfold run_enhanced_batch_pipeline
    simp only [get_filtered_max_exams_irrel, hlim, hlim',
      runLoop_max_exams_irrel cfg none env]
  · intro n hn hpos
    have hlim : ∀ ys : List ExamOverviewRow,
        limitItems cfg ys = ys.take n.toNat := by
      intro ys
      simp [limitItems, hn, pySliceTo, show ¬n = 0 by omega,
        show (0 : Int) ≤ n by omega]
    refine ⟨hlim xs, ?_, ?_⟩
    · unfold run_enhanced_batch_pipeline
      by_cases hemp : get_filtered_exam_overviews cfg table = []
      · simp [hemp]
      · simp only [hemp, if_false]
        rw [hlim]
        obtain ⟨t, ht⟩ := runLoop_results_extend cfg env
          ((get_filtered_exam_overviews cfg table).take n.toNat)
        have hlen : (((get_filtered_exam_overviews cfg table).take
            n.toNat).map (fun it =>
              process_single_exam_with_retry it cfg (env it))).length =
            (runLoop cfg env ((get_filtered_exam_overviews cfg table).take
              n.toNat)).1.length + t.length := by
          rw [ht, List.length_append]
        rw [List.length_map, List.length_take] at hlen
        omega
    · unfold run_enhanced_batch_pipeline
      by_cases hemp : get_filtered_exam_overviews cfg table = []
      · exact ⟨[], by simp [hemp]⟩
      · simp only [hemp, if_false]
        rw [hlim]
        exact runLoop_results_extend cfg env _

/-- Witness for C10: with `max_exams = 0` nothing is limited; with
`max_exams = 2` on a three-row table, only the first two items are
processed. -/
theorem C10_max_exams_limit_witness :
    limitItems cfgLimit0W table3W = table3W ∧
    run_enhanced_batch_pipeline cfgLimit0W table3W envSelW =
      run_enhanced_batch_pipeline { cfgLimit0W with max_exams := none }
        table3W envSelW ∧
    limitItems cfgLimit2W table3W = List.take 2 table3W ∧
    (run_enhanced_batch_pipeline cfgLimit2W table3W envSelW).1.length ≤ 2 := by
  have h0 := (C10_max_exams_limit cfgLimit0W table3W envSelW table3W).1 rfl
  have h2 := (C10_max_exams_limit cfgLimit2W table3W envSelW table3W).2 2 rfl
    (by omega)
  exact ⟨h0.1, h0.2, h2.1, h2.2.1⟩

end OlympiadBatch
